import Mathlib

/-!
Shallow embedding of the backtester core (engine, broker, portfolio, risk
filter) from `src/backtester`.  Money amounts and prices are modelled as
rationals, share quantities as integers, and dates as naturals (an
abstract strictly ordered time stamp).  Python's `round(x, 4)` is
modelled as exact decimal rounding to four places with ties to even,
which is the documented behaviour of Python's `round`.  Stateful classes
(`Portfolio`, `RiskManager`, the `Engine` loop) are embedded by explicit
state passing; the bar loop of `Engine.run` is a left fold of a step
function over the bar list.
-/

namespace Backtester

/-- Order / fill side, from `models.Side`. -/
inductive Side where
  | BUY
  | SELL
deriving DecidableEq, Repr

/-- Order type, from `models.OrderType` (market orders only). -/
inductive OrderType where
  | MARKET
deriving DecidableEq, Repr

/-- One OHLCV observation, from `models.Bar`. -/
structure Bar where
  date : ℕ
  «open» : ℚ
  high : ℚ
  low : ℚ
  close : ℚ
  volume : ℤ
deriving DecidableEq, Repr

/-- A strategy's trading intent, from `models.Signal`. -/
structure Signal where
  date : ℕ
  ticker : String
  side : Side
  quantity : ℤ
deriving DecidableEq, Repr

/-- A risk-approved signal queued for execution, from `models.Order`. -/
structure Order where
  date : ℕ
  ticker : String
  side : Side
  quantity : ℤ
  order_type : OrderType
deriving DecidableEq, Repr

/-- The realized outcome of executing an order, from `models.Fill`. -/
structure Fill where
  date : ℕ
  ticker : String
  side : Side
  quantity : ℤ
  fill_price : ℚ
  commission : ℚ
deriving DecidableEq, Repr

/-- Per-ticker holding, from `models.Position`. -/
structure Position where
  ticker : String
  quantity : ℤ
  avg_cost : ℚ
deriving DecidableEq, Repr

/-- `models.Position.update`: applies a fill to a position and returns the
new position together with the signed cash delta that the Python method
returns (negative for BUY, positive for SELL). -/
def Position.update (p : Position) (f : Fill) : Position × ℚ :=
  match f.side with
  | Side.BUY =>
    ({ ticker := p.ticker,
       quantity := p.quantity + f.quantity,
       avg_cost :=
         if p.quantity + f.quantity > 0 then
           (p.avg_cost * (p.quantity : ℚ) + f.fill_price * (f.quantity : ℚ)) /
             ((p.quantity + f.quantity : ℤ) : ℚ)
         else 0 },
     -(f.fill_price * (f.quantity : ℚ) + f.commission))
  | Side.SELL =>
    ({ ticker := p.ticker,
       quantity := p.quantity - f.quantity,
       avg_cost := if p.quantity - f.quantity = 0 then 0 else p.avg_cost },
     f.fill_price * (f.quantity : ℚ) - f.commission)

/-- Lookup in the insertion-ordered ticker-to-position dictionary. -/
def findPos : List (String × Position) → String → Option Position
  | [], _ => none
  | (k, v) :: rest, t => if k = t then some v else findPos rest t

/-- Replace the value stored under a ticker in the position dictionary. -/
def setPos (ps : List (String × Position)) (t : String) (p : Position) :
    List (String × Position) :=
  ps.map (fun kv => if kv.1 = t then (kv.1, p) else kv)

/-- Mutable ledger state, from `portfolio.Portfolio`.  The Python `dict`
of positions is modelled as an insertion-ordered association list. -/
structure Portfolio where
  initial_cash : ℚ
  cash : ℚ
  positions : List (String × Position)
  fills : List Fill
  equity_curve : List (ℕ × ℚ)
deriving DecidableEq, Repr

/-- `Portfolio.process_fill`: append the fill, lazily create the position,
apply `Position.update`, add the returned cash delta to cash. -/
def Portfolio.process_fill (pf : Portfolio) (f : Fill) : Portfolio :=
  let positions0 :=
    if (findPos pf.positions f.ticker).isSome then pf.positions
    else pf.positions ++ [(f.ticker, { ticker := f.ticker, quantity := 0, avg_cost := 0 })]
  let pos := (findPos positions0 f.ticker).getD { ticker := f.ticker, quantity := 0, avg_cost := 0 }
  { initial_cash := pf.initial_cash,
    cash := pf.cash + (Position.update pos f).2,
    positions := setPos positions0 f.ticker (Position.update pos f).1,
    fills := pf.fills ++ [f],
    equity_curve := pf.equity_curve }

/-- Mark-to-market value of all positions with positive quantity whose
ticker appears in `prices`, as computed inside `Portfolio.record_equity`. -/
def Portfolio.holdings_value (pf : Portfolio) (prices : List (String × ℚ)) : ℚ :=
  pf.positions.foldl
    (fun (acc : ℚ) (kv : String × Position) =>
      if kv.2.quantity > 0 then
        match prices.lookup kv.1 with
        | some pr => acc + (kv.2.quantity : ℚ) * pr
        | none => acc
      else acc) (0 : ℚ)

/-- Total portfolio value: cash plus mark-to-market holdings. -/
def Portfolio.total_equity (pf : Portfolio) (prices : List (String × ℚ)) : ℚ :=
  pf.cash + pf.holdings_value prices

/-- `Portfolio.record_equity`: append one `(date, total_equity)` point. -/
def Portfolio.record_equity (pf : Portfolio) (date : ℕ) (prices : List (String × ℚ)) :
    Portfolio :=
  { pf with equity_curve := pf.equity_curve ++ [(date, pf.total_equity prices)] }

/-- `Portfolio.trade_count`: number of fills. -/
def Portfolio.trade_count (pf : Portfolio) : ℕ :=
  pf.fills.length

/-- Rounding of a rational to the nearest integer with ties to even,
the behaviour of Python's builtin `round`. -/
def roundHalfEven (q : ℚ) : ℤ :=
  if q - ⌊q⌋ < 1/2 then ⌊q⌋
  else if q - ⌊q⌋ > 1/2 then ⌊q⌋ + 1
  else if ⌊q⌋ % 2 = 0 then ⌊q⌋ else ⌊q⌋ + 1

/-- Python's `round(x, 4)`: round to four decimal places, ties to even. -/
def round4 (x : ℚ) : ℚ :=
  ((roundHalfEven (x * 10000) : ℤ) : ℚ) / 10000

/-- Execution simulator parameters, from `broker.Broker`. -/
structure Broker where
  slippage_pct : ℚ
  commission_per_share : ℚ
deriving DecidableEq, Repr

/-- `Broker.execute`: fill at the bar's open price moved against the
trader by `slippage_pct`, with per-share commission; price and
commission rounded to four decimal places. -/
def Broker.execute (br : Broker) (o : Order) (bar : Bar) : Fill :=
  { date := o.date,
    ticker := o.ticker,
    side := o.side,
    quantity := o.quantity,
    fill_price :=
      round4 (if o.side = Side.BUY then bar.«open» * (1 + br.slippage_pct)
              else bar.«open» * (1 - br.slippage_pct)),
    commission := round4 (br.commission_per_share * (o.quantity : ℚ)) }

/-- Risk filter parameters, from `risk.RiskManager.__init__`. -/
structure RiskManager where
  max_position_pct : ℚ
  max_drawdown_pct : ℚ
deriving DecidableEq, Repr

/-- Risk filter mutable state (`_peak_equity`, `_stopped_out`). -/
structure RiskState where
  peak_equity : ℚ
  stopped_out : Bool
deriving DecidableEq, Repr

/-- The state left by `RiskManager.check` when the drawdown branch does
not return: peak updated to `max(peak, equity)` and the stop flag
cleared when equity has recovered to 95 percent of the peak. -/
def RiskManager.postStop (st : RiskState) (equity : ℚ) : RiskState :=
  { peak_equity := max st.peak_equity equity,
    stopped_out :=
      if st.stopped_out ∧ equity ≥ max st.peak_equity equity * (95/100) then false
      else st.stopped_out }

/-- `RiskManager.check`: updates the peak, vetoes on a drawdown breach,
otherwise applies the position-size cap; returns the successor risk
state together with the (possibly resized) signal, `none` for a veto. -/
def RiskManager.check (rm : RiskManager) (st : RiskState) (signal : Signal)
    (equity price : ℚ) : RiskState × Option Signal :=
  if max st.peak_equity equity > 0 ∧
     (max st.peak_equity equity - equity) / max st.peak_equity equity ≥ rm.max_drawdown_pct then
    ({ peak_equity := max st.peak_equity equity, stopped_out := true }, none)
  else if (signal.quantity : ℚ) * price > equity * rm.max_position_pct then
    if ⌊equity * rm.max_position_pct / price⌋ ≤ 0 then
      (RiskManager.postStop st equity, none)
    else
      (RiskManager.postStop st equity,
       some { date := signal.date, ticker := signal.ticker, side := signal.side,
              quantity := ⌊equity * rm.max_position_pct / price⌋ })
  else (RiskManager.postStop st equity, some signal)

/-- Strategy interface, from `strategy.Strategy`: a ticker and the
`on_bar` callback.  `on_bar` is modelled as a function of the full bar
history accumulated so far (`_bars` after `_push_bar`), whose last
element is the current bar; the interface contract makes a strategy a
deterministic function of that append-only history. -/
structure Strategy where
  ticker : String
  on_bar : List Bar → Option Signal

/-- Engine mutable state: the portfolio, the risk filter state, the
pending-signal queue (`_pending_signals`) and the strategy's bar
history (`Strategy._bars`). -/
structure EngineState where
  portfolio : Portfolio
  riskState : RiskState
  pending : List Signal
  history : List Bar
deriving Repr

/-- Conversion of a pending signal into a market order dated at the
execution bar and its execution by the broker, as in
`Engine._execute_pending`. -/
def execFill (broker : Broker) (bar : Bar) (signal : Signal) : Fill :=
  broker.execute
    { date := bar.date, ticker := signal.ticker, side := signal.side,
      quantity := signal.quantity, order_type := OrderType.MARKET } bar

/-- `Engine._execute_pending`: execute every queued signal against the
current bar, apply the fills to the portfolio, clear the queue. -/
def Engine.executePending (broker : Broker) (st : EngineState) (bar : Bar) : EngineState :=
  { st with
    portfolio :=
      st.pending.foldl (fun pf sig => pf.process_fill (execFill broker bar sig)) st.portfolio,
    pending := [] }

/-- The signal-emission phase of one `Engine.run` iteration: call the
strategy on the pushed history; a BUY signal is routed through the risk
filter when one is configured (the engine passes `portfolio.cash` as the
equity argument and the bar's close as the price); other signals and the
risk state pass through unchanged. -/
def Engine.emit (strat : Strategy) (rm : Option RiskManager) (rs : RiskState)
    (cash : ℚ) (hist : List Bar) (bar : Bar) : RiskState × Option Signal :=
  match strat.on_bar hist with
  | none => (rs, none)
  | some s =>
    match rm with
    | none => (rs, some s)
    | some cfg =>
      if s.side = Side.BUY then RiskManager.check cfg rs s cash bar.close
      else (rs, some s)

/-- One iteration of the `Engine.run` bar loop: execute pending signals
against the current bar, push the bar and ask the strategy for a signal,
risk-filter it, enqueue the survivor, and record equity at the bar's
close. -/
def Engine.step (strat : Strategy) (broker : Broker) (rm : Option RiskManager)
    (st : EngineState) (bar : Bar) : EngineState :=
  let st1 := Engine.executePending broker st bar
  let es := Engine.emit strat rm st1.riskState st1.portfolio.cash (st1.history ++ [bar]) bar
  { portfolio := st1.portfolio.record_equity bar.date [(strat.ticker, bar.close)],
    riskState := es.1,
    pending := st1.pending ++ es.2.toList,
    history := st1.history ++ [bar] }

/-- The `Engine.run` bar loop from an arbitrary engine state. -/
def Engine.runFrom (strat : Strategy) (broker : Broker) (rm : Option RiskManager)
    (st : EngineState) (bars : List Bar) : EngineState :=
  bars.foldl (Engine.step strat broker rm) st

/-- Initial engine state built by `Engine.__init__`: fresh portfolio with
`initial_cash`, fresh risk state (`_peak_equity = 0`, not stopped out),
no pending signals, empty history. -/
def Engine.init (initial_cash : ℚ) : EngineState :=
  { portfolio :=
      { initial_cash := initial_cash, cash := initial_cash, positions := [],
        fills := [], equity_curve := [] },
    riskState := { peak_equity := 0, stopped_out := false },
    pending := [],
    history := [] }

/-- `Engine.run`: fold the bar loop over the input bar sequence starting
from the freshly initialised engine state.  The Python method has no
failure path of its own: an empty sequence simply skips the loop. -/
def Engine.run (strat : Strategy) (broker : Broker) (rm : Option RiskManager)
    (initial_cash : ℚ) (bars : List Bar) : EngineState :=
  Engine.runFrom strat broker rm (Engine.init initial_cash) bars

/-! Concrete instances used by witnesses, counterexamples and code-bug
evaluations. -/

/-- A buy signal for one share, used in the risk-filter scenarios. -/
def sigC3 : Signal := { date := 0, ticker := "T", side := Side.BUY, quantity := 1 }

/-- Risk parameters: cap at half of equity, stop at 20 percent drawdown. -/
def rmC3 : RiskManager := { max_position_pct := 1/2, max_drawdown_pct := 1/5 }

/-- Broker with 0.1 percent slippage and no commission. -/
def brokerC7 : Broker := { slippage_pct := 1/1000, commission_per_share := 0 }

/-- A one-share market buy order. -/
def orderC7 : Order :=
  { date := 0, ticker := "T", side := Side.BUY, quantity := 1, order_type := OrderType.MARKET }

/-- A bar whose prices all equal 0.01. -/
def barC7 : Bar :=
  { date := 0, «open» := 1/100, high := 1/100, low := 1/100, close := 1/100, volume := 0 }

/-- Strategy that buys 500 shares on the first bar and 1 share on the
second bar. -/
def stratC5 : Strategy :=
  { ticker := "T",
    on_bar := fun hist =>
      if hist.length = 1 then some { date := 0, ticker := "T", side := Side.BUY, quantity := 500 }
      else if hist.length = 2 then some { date := 1, ticker := "T", side := Side.BUY, quantity := 1 }
      else none }

/-- Frictionless broker: no slippage, no commission. -/
def brokerC5 : Broker := { slippage_pct := 0, commission_per_share := 0 }

/-- Risk parameters allowing a position worth all of equity, with a 20
percent drawdown stop. -/
def rmC5 : RiskManager := { max_position_pct := 1, max_drawdown_pct := 1/5 }

/-- First bar of the constant-price scenario: every price is 100. -/
def barC5a : Bar := { date := 0, «open» := 100, high := 100, low := 100, close := 100, volume := 0 }

/-- Second bar of the constant-price scenario: every price is 100. -/
def barC5b : Bar := { date := 1, «open» := 100, high := 100, low := 100, close := 100, volume := 0 }

/-- Strategy that never emits a signal. -/
def stratNone : Strategy := { ticker := "T", on_bar := fun _ => none }

/-- A portfolio state used by witnesses. -/
def pfW : Portfolio :=
  { initial_cash := 100000, cash := 100000, positions := [], fills := [], equity_curve := [] }

/-- A concrete BUY fill. -/
def fillBuyW : Fill :=
  { date := 0, ticker := "T", side := Side.BUY, quantity := 100, fill_price := 150,
    commission := 1/2 }

/-- A concrete SELL fill. -/
def fillSellW : Fill :=
  { date := 0, ticker := "T", side := Side.SELL, quantity := 100, fill_price := 160,
    commission := 1/2 }

/-- A buy signal for 1000 shares. -/
def sigW4 : Signal := { date := 0, ticker := "T", side := Side.BUY, quantity := 1000 }

/-- Risk parameters: cap at 10 percent of equity. -/
def rmW4 : RiskManager := { max_position_pct := 1/10, max_drawdown_pct := 1/5 }

/-- A bar whose open is 100. -/
def barW7 : Bar :=
  { date := 0, «open» := 100, high := 101, low := 99, close := 100, volume := 0 }

/-- Strategy that emits a BUY for 10 shares on the first bar only. -/
def stratW1 : Strategy :=
  { ticker := "T",
    on_bar := fun hist =>
      if hist.length = 1 then some { date := 0, ticker := "T", side := Side.BUY, quantity := 10 }
      else none }

/-- First bar of the two-bar lag scenario. -/
def bw0 : Bar := { date := 5, «open» := 10, high := 10, low := 10, close := 10, volume := 0 }

/-- Second bar of the two-bar lag scenario. -/
def bw1 : Bar := { date := 6, «open» := 11, high := 11, low := 11, close := 11, volume := 0 }

/-! Helper lemmas shared by the claim theorems. -/

theorem roundHalfEven_abs (q : ℚ) : |((roundHalfEven q : ℤ) : ℚ) - q| ≤ 1/2 := by
  have h0 : ((⌊q⌋ : ℤ) : ℚ) ≤ q := Int.floor_le q
  have h1 : q < ((⌊q⌋ : ℤ) : ℚ) + 1 := Int.lt_floor_add_one q
  unfold roundHalfEven
  split_ifs with hA hB hC <;> rw [abs_le] <;> push_cast <;> constructor <;> linarith

theorem round4_abs (x : ℚ) : |round4 x - x| ≤ 1/20000 := by
  have h := roundHalfEven_abs (x * 10000)
  have hrw : round4 x - x = (((roundHalfEven (x * 10000) : ℤ) : ℚ) - x * 10000) / 10000 := by
    unfold round4; ring
  rw [hrw, abs_div, abs_of_pos (by norm_num : (0:ℚ) < 10000)]
  rw [div_le_iff₀ (by norm_num : (0:ℚ) < 10000)]
  linarith

theorem process_fill_fills (pf : Portfolio) (f : Fill) :
    (Portfolio.process_fill pf f).fills = pf.fills ++ [f] := rfl

theorem process_fill_curve (pf : Portfolio) (f : Fill) :
    (Portfolio.process_fill pf f).equity_curve = pf.equity_curve := rfl

theorem foldl_process_fill_fills (broker : Broker) (bar : Bar)
    (pending : List Signal) (pf : Portfolio) :
    (pending.foldl (fun a s => Portfolio.process_fill a (execFill broker bar s)) pf).fills
      = pf.fills ++ pending.map (execFill broker bar) := by
  induction pending generalizing pf with
  | nil => simp
  | cons s rest ih =>
      rw [List.foldl_cons, ih, process_fill_fills, List.map_cons, List.append_assoc,
        List.singleton_append]

theorem foldl_process_fill_curve (broker : Broker) (bar : Bar)
    (pending : List Signal) (pf : Portfolio) :
    (pending.foldl (fun a s => Portfolio.process_fill a (execFill broker bar s)) pf).equity_curve
      = pf.equity_curve := by
  induction pending generalizing pf with
  | nil => rfl
  | cons s rest ih => rw [List.foldl_cons, ih, process_fill_curve]

theorem step_pending (strat : Strategy) (broker : Broker) (rm : Option RiskManager)
    (st : EngineState) (bar : Bar) :
    (Engine.step strat broker rm st bar).pending =
      (Engine.emit strat rm (Engine.executePending broker st bar).riskState
        (Engine.executePending broker st bar).portfolio.cash (st.history ++ [bar]) bar).2.toList := by
  simp [Engine.step, Engine.executePending]

theorem step_fills (strat : Strategy) (broker : Broker) (rm : Option RiskManager)
    (st : EngineState) (bar : Bar) :
    (Engine.step strat broker rm st bar).portfolio.fills =
      st.portfolio.fills ++ st.pending.map (execFill broker bar) := by
  simp [Engine.step, Engine.executePending, Portfolio.record_equity,
    foldl_process_fill_fills]

theorem step_equity_len (strat : Strategy) (broker : Broker) (rm : Option RiskManager)
    (st : EngineState) (bar : Bar) :
    (Engine.step strat broker rm st bar).portfolio.equity_curve.length =
      st.portfolio.equity_curve.length + 1 := by
  simp [Engine.step, Engine.executePending, Portfolio.record_equity,
    foldl_process_fill_curve]

theorem runFrom_append (strat : Strategy) (broker : Broker) (rm : Option RiskManager)
    (st : EngineState) (l1 l2 : List Bar) :
    Engine.runFrom strat broker rm st (l1 ++ l2) =
      Engine.runFrom strat broker rm (Engine.runFrom strat broker rm st l1) l2 := by
  simp [Engine.runFrom, List.foldl_append]

theorem runFrom_take_succ (strat : Strategy) (broker : Broker) (rm : Option RiskManager)
    (st0 : EngineState) (bars : List Bar) (i : ℕ) (h : i < bars.length) :
    Engine.runFrom strat broker rm st0 (bars.take (i+1)) =
      Engine.step strat broker rm (Engine.runFrom strat broker rm st0 (bars.take i))
        (bars.get ⟨i, h⟩) := by
  unfold Engine.runFrom
  rw [List.take_succ, List.getElem?_eq_getElem h, Option.toList_some, List.foldl_append,
    List.foldl_cons, List.foldl_nil, List.get_eq_getElem]

theorem runFrom_equity_len (strat : Strategy) (broker : Broker) (rm : Option RiskManager)
    (bars : List Bar) (st : EngineState) :
    (Engine.runFrom strat broker rm st bars).portfolio.equity_curve.length =
      st.portfolio.equity_curve.length + bars.length := by
  induction bars generalizing st with
  | nil => rfl
  | cons b rest ih =>
      show (Engine.runFrom strat broker rm (Engine.step strat broker rm st b) rest).portfolio.equity_curve.length = _
      rw [ih, step_equity_len, List.length_cons]
      omega

theorem execFill_date (broker : Broker) (bar : Bar) (s : Signal) :
    (execFill broker bar s).date = bar.date := rfl

/-! Claim theorems. -/

/-- Claim C2: for every fill processed by `Portfolio.process_fill`, a BUY
fill decreases cash by exactly `fill_price * quantity + commission` and a
SELL fill increases cash by exactly `fill_price * quantity - commission`. -/
theorem portfolio_process_fill_cash (pf : Portfolio) (f : Fill) :
    (f.side = Side.BUY →
       (Portfolio.process_fill pf f).cash =
         pf.cash - (f.fill_price * (f.quantity : ℚ) + f.commission)) ∧
    (f.side = Side.SELL →
       (Portfolio.process_fill pf f).cash =
         pf.cash + (f.fill_price * (f.quantity : ℚ) - f.commission)) := by
  constructor <;> intro hs <;>
    simp only [Portfolio.process_fill, Position.update, hs] <;> ring

/-- Witness for C2: the cash equations evaluated at a concrete portfolio
and concrete BUY and SELL fills. -/
theorem portfolio_process_fill_cash_witness :
    (Portfolio.process_fill pfW fillBuyW).cash =
      pfW.cash - (fillBuyW.fill_price * (fillBuyW.quantity : ℚ) + fillBuyW.commission) ∧
    (Portfolio.process_fill pfW fillSellW).cash =
      pfW.cash + (fillSellW.fill_price * (fillSellW.quantity : ℚ) - fillSellW.commission) :=
  ⟨(portfolio_process_fill_cash pfW fillBuyW).1 rfl,
   (portfolio_process_fill_cash pfW fillSellW).2 rfl⟩

/-- Claim C4: when `RiskManager.check` is called with positive price and
the drawdown breaker does not veto, an oversized signal is resized to
exactly `floor(equity * max_position_pct / price)` shares, is vetoed when
that floor is at most zero, and passes through unchanged when it does not
exceed the cap. -/
theorem risk_position_cap (rm : RiskManager) (st : RiskState) (signal : Signal)
    (equity price : ℚ) (hp : 0 < price)
    (hnd : ¬ (max st.peak_equity equity > 0 ∧
              (max st.peak_equity equity - equity) / max st.peak_equity equity ≥
                rm.max_drawdown_pct)) :
    ((signal.quantity : ℚ) * price > equity * rm.max_position_pct →
       (⌊equity * rm.max_position_pct / price⌋ ≤ 0 →
          (RiskManager.check rm st signal equity price).2 = none) ∧
       (0 < ⌊equity * rm.max_position_pct / price⌋ →
          (RiskManager.check rm st signal equity price).2 =
            some { date := signal.date, ticker := signal.ticker, side := signal.side,
                   quantity := ⌊equity * rm.max_position_pct / price⌋ })) ∧
    ((signal.quantity : ℚ) * price ≤ equity * rm.max_position_pct →
       (RiskManager.check rm st signal equity price).2 = some signal) := by
  unfold RiskManager.check
  rw [if_neg hnd]
  refine ⟨fun hcap => ⟨fun hle => ?_, fun hpos => ?_⟩, fun hnc => ?_⟩
  · rw [if_pos hcap, if_pos hle]
  · rw [if_pos hcap, if_neg (not_le.mpr hpos)]
  · rw [if_neg (not_lt.mpr hnc)]

/-- Witness for C4: a 1000-share buy at price 150 with equity 100000 and a
10 percent cap is resized to the floor of `10000 / 150`. -/
theorem risk_position_cap_witness :
    (RiskManager.check rmW4 ⟨0, false⟩ sigW4 100000 150).2 =
      some { date := sigW4.date, ticker := sigW4.ticker, side := sigW4.side,
             quantity := ⌊(100000 : ℚ) * rmW4.max_position_pct / 150⌋ } :=
  ((risk_position_cap rmW4 ⟨0, false⟩ sigW4 100000 150 (by norm_num)
      (by rw [max_eq_right (by norm_num : (0:ℚ) ≤ 100000)]; norm_num [rmW4])).1
    (by norm_num [sigW4, rmW4])).2 (by norm_num [rmW4])

/-- Claim C10 counterexample: with a negative price, `RiskManager.check`
can return a signal whose quantity is strictly larger than the input's
(1 becomes 10), refuting the claim for unrestricted calls. -/
theorem risk_check_frame_counterexample :
    (RiskManager.check rmC3 ⟨0, false⟩ sigC3 (-20) (-1)).2 =
      some { date := 0, ticker := "T", side := Side.BUY, quantity := 10 } ∧
    sigC3.quantity = 1 := by
  norm_num [RiskManager.check, RiskManager.postStop, sigC3, rmC3]

/-- Claim C10 (amended to calls with positive price): the result of
`RiskManager.check` is either absent, the input signal itself, or a
signal with the same date, ticker and side and a strictly smaller
quantity. -/
theorem risk_check_frame (rm : RiskManager) (st : RiskState) (signal : Signal)
    (equity price : ℚ) (hp : 0 < price) :
    (RiskManager.check rm st signal equity price).2 = none ∨
    (RiskManager.check rm st signal equity price).2 = some signal ∨
    (∃ q : ℤ, q < signal.quantity ∧
      (RiskManager.check rm st signal equity price).2 =
        some { date := signal.date, ticker := signal.ticker, side := signal.side,
               quantity := q }) := by
  unfold RiskManager.check
  split_ifs with h1 h2 h3
  · exact Or.inl rfl
  · exact Or.inl rfl
  · refine Or.inr (Or.inr ⟨⌊equity * rm.max_position_pct / price⌋, ?_, rfl⟩)
    have hq : equity * rm.max_position_pct / price < (signal.quantity : ℚ) := by
      rw [div_lt_iff₀ hp]
      exact h2
    have hf := Int.floor_le (equity * rm.max_position_pct / price)
    exact_mod_cast lt_of_le_of_lt hf hq
  · exact Or.inr (Or.inl rfl)

/-- Witness for C10 at a concrete positive-price call. -/
theorem risk_check_frame_witness :
    (RiskManager.check rmC3 ⟨0, false⟩ sigC3 100 1).2 = none ∨
    (RiskManager.check rmC3 ⟨0, false⟩ sigC3 100 1).2 = some sigC3 ∨
    (∃ q : ℤ, q < sigC3.quantity ∧
      (RiskManager.check rmC3 ⟨0, false⟩ sigC3 100 1).2 =
        some { date := sigC3.date, ticker := sigC3.ticker, side := sigC3.side,
               quantity := q }) :=
  risk_check_frame rmC3 ⟨0, false⟩ sigC3 100 1 (by norm_num)

/-- Claim C7 counterexample: with open 0.01 and slippage 0.001 (both
positive), the BUY fill price after rounding to four decimal places
equals the open, so it is not strictly greater. -/
theorem broker_slippage_counterexample :
    0 < barC7.«open» ∧ 0 < brokerC7.slippage_pct ∧ orderC7.side = Side.BUY ∧
    (brokerC7.execute orderC7 barC7).fill_price = barC7.«open» ∧
    ¬ barC7.«open» < (brokerC7.execute orderC7 barC7).fill_price := by
  have h : (brokerC7.execute orderC7 barC7).fill_price = barC7.«open» := by
    norm_num [Broker.execute, round4, roundHalfEven, barC7, brokerC7, orderC7]
  refine ⟨by norm_num [barC7], by norm_num [brokerC7], rfl, h, ?_⟩
  rw [h]
  exact lt_irrefl _

/-- Claim C7 (amended: the slippage increment must exceed half the
rounding quantum, `open * slippage_pct > 1/20000`, for rounding not to
erase it): a BUY fill price is then strictly above the bar's open and a
SELL fill price strictly below it. -/
theorem broker_slippage_direction (br : Broker) (o : Order) (bar : Bar)
    (ho : 0 < bar.«open») (hs : 0 < br.slippage_pct)
    (hq : 1/20000 < bar.«open» * br.slippage_pct) :
    (o.side = Side.BUY → bar.«open» < (br.execute o bar).fill_price) ∧
    (o.side = Side.SELL → (br.execute o bar).fill_price < bar.«open») := by
  have h1 := round4_abs (bar.«open» * (1 + br.slippage_pct))
  have h2 := round4_abs (bar.«open» * (1 - br.slippage_pct))
  rw [abs_le] at h1 h2
  have e1 : bar.«open» * (1 + br.slippage_pct) =
      bar.«open» + bar.«open» * br.slippage_pct := by ring
  have e2 : bar.«open» * (1 - br.slippage_pct) =
      bar.«open» - bar.«open» * br.slippage_pct := by ring
  constructor <;> intro hside
  · have hfp : (br.execute o bar).fill_price =
        round4 (bar.«open» * (1 + br.slippage_pct)) := by
      simp [Broker.execute, hside]
    rw [hfp, e1]
    rw [e1] at h1
    linarith [h1.1]
  · have hfp : (br.execute o bar).fill_price =
        round4 (bar.«open» * (1 - br.slippage_pct)) := by
      simp [Broker.execute, hside]
    rw [hfp, e2]
    rw [e2] at h2
    linarith [h2.2]

/-- Witness for C7 (amended): open 100, slippage 0.001, a BUY fills
strictly above the open. -/
theorem broker_slippage_direction_witness :
    barW7.«open» < (brokerC7.execute orderC7 barW7).fill_price :=
  (broker_slippage_direction brokerC7 orderC7 barW7 (by norm_num [barW7])
    (by norm_num [brokerC7]) (by norm_num [barW7, brokerC7])).1 rfl

/-- Claim C3 (code bug): the drawdown stop has no hysteresis.  After the
breaker trips at a 20 percent drawdown (second call, equity 80 against
peak 100), a third BUY check with equity 85 — still stopped out and
strictly below the 95 percent recovery line of 95 — is NOT vetoed: the
code returns the signal because the veto tests only the current
drawdown, and the `stopped_out` flag never blocks anything by itself. -/
theorem risk_hysteresis_code_bug :
    (RiskManager.check rmC3 ⟨0, false⟩ sigC3 100 1) = (⟨100, false⟩, some sigC3) ∧
    (RiskManager.check rmC3 ⟨100, false⟩ sigC3 80 1) = (⟨100, true⟩, none) ∧
    (85 : ℚ) < (100 : ℚ) * (95/100) ∧
    (RiskManager.check rmC3 ⟨100, true⟩ sigC3 85 1) = (⟨100, true⟩, some sigC3) := by
  norm_num [RiskManager.check, RiskManager.postStop, sigC3, rmC3]

/-- Claim C5 (code bug): the engine passes `portfolio.cash`, not total
equity, to the risk filter.  In a two-bar constant-price run the
portfolio buys 500 shares at 100, so on the second bar total equity is
still 100000 (the recorded equity curve is flat), yet the filter is
called with cash 50000, computes a 50 percent drawdown and trips the
stop, vetoing the second buy; the same check fed the true total equity
100000 would have passed the signal. -/
theorem engine_risk_equity_code_bug :
    (Engine.run stratC5 brokerC5 (some rmC5) 100000 [barC5a, barC5b]).riskState.stopped_out
      = true ∧
    (Engine.run stratC5 brokerC5 (some rmC5) 100000 [barC5a, barC5b]).portfolio.equity_curve
      = [(0, 100000), (1, 100000)] ∧
    (Engine.run stratC5 brokerC5 (some rmC5) 100000 [barC5a, barC5b]).pending = [] ∧
    (Engine.run stratC5 brokerC5 (some rmC5) 100000 [barC5a, barC5b]).portfolio.fills.length
      = 1 ∧
    (RiskManager.check rmC5 ⟨100000, false⟩
        { date := 1, ticker := "T", side := Side.BUY, quantity := 1 } 100000 100).2 =
      some { date := 1, ticker := "T", side := Side.BUY, quantity := 1 } := by
  norm_num [Engine.run, Engine.runFrom, Engine.step, Engine.executePending, Engine.emit,
    Engine.init, RiskManager.check, RiskManager.postStop, Portfolio.process_fill,
    Portfolio.record_equity, Portfolio.total_equity, Portfolio.holdings_value,
    Position.update, findPos, setPos, execFill, Broker.execute, round4, roundHalfEven,
    stratC5, brokerC5, rmC5, barC5a, barC5b, List.lookup]

/-- Claim C8 counterexample: on the empty bar sequence `Engine.run`
returns normally — the result is exactly the initial engine state, with
an empty equity curve and no fills — instead of surfacing a failure. -/
theorem engine_empty_input_counterexample :
    Engine.run stratNone brokerC7 none 100000 [] = Engine.init 100000 ∧
    (Engine.run stratNone brokerC7 none 100000 []).portfolio.equity_curve = [] ∧
    (Engine.run stratNone brokerC7 none 100000 []).portfolio.fills = [] :=
  ⟨rfl, rfl, rfl⟩

/-- Claim C8 (amended): for an empty input bar sequence `Engine.run`
returns normally with the untouched initial state — empty equity curve,
no fills, no pending orders; it has no failure path of its own
(empty-input errors are raised by the data-acquisition collaborator,
not the engine). -/
theorem engine_empty_input_returns_normally (strat : Strategy) (broker : Broker)
    (rm : Option RiskManager) (cash : ℚ) :
    Engine.run strat broker rm cash [] = Engine.init cash ∧
    (Engine.run strat broker rm cash []).portfolio.equity_curve = [] ∧
    (Engine.run strat broker rm cash []).portfolio.fills = [] :=
  ⟨rfl, rfl, rfl⟩

/-- Claim C6: a run over N bars produces an equity curve of exactly N
points, and each single bar iteration appends exactly one point. -/
theorem engine_equity_curve_length :
    (∀ (strat : Strategy) (broker : Broker) (rm : Option RiskManager) (cash : ℚ)
       (bars : List Bar),
       (Engine.run strat broker rm cash bars).portfolio.equity_curve.length = bars.length) ∧
    (∀ (strat : Strategy) (broker : Broker) (rm : Option RiskManager) (st : EngineState)
       (bar : Bar),
       (Engine.step strat broker rm st bar).portfolio.equity_curve.length =
         st.portfolio.equity_curve.length + 1) := by
  constructor
  · intro strat broker rm cash bars
    rw [Engine.run, runFrom_equity_len]
    simp [Engine.init]
  · exact step_equity_len

/-- Claim C9: appending a final bar `b` to a run adds to the fill list
only the executions of the signals already pending before `b` (those
emitted on the bar preceding `b`); the signal that survives risk
filtering on `b` itself lands only in the pending queue, never in
`fills`, and the fill count grows only by the earlier pending count. -/
theorem engine_final_bar_signal_unfilled (strat : Strategy) (broker : Broker)
    (rm : Option RiskManager) (st0 : EngineState) (bs : List Bar) (b : Bar) :
    (Engine.runFrom strat broker rm st0 (bs ++ [b])).portfolio.fills =
      (Engine.runFrom strat broker rm st0 bs).portfolio.fills ++
        (Engine.runFrom strat broker rm st0 bs).pending.map (execFill broker b) ∧
    (Engine.runFrom strat broker rm st0 (bs ++ [b])).pending =
      (Engine.emit strat rm
        (Engine.executePending broker (Engine.runFrom strat broker rm st0 bs) b).riskState
        (Engine.executePending broker (Engine.runFrom strat broker rm st0 bs) b).portfolio.cash
        ((Engine.runFrom strat broker rm st0 bs).history ++ [b]) b).2.toList ∧
    (Engine.runFrom strat broker rm st0 (bs ++ [b])).portfolio.fills.length =
      (Engine.runFrom strat broker rm st0 bs).portfolio.fills.length +
        (Engine.runFrom strat broker rm st0 bs).pending.length := by
  have h : Engine.runFrom strat broker rm st0 (bs ++ [b]) =
      Engine.step strat broker rm (Engine.runFrom strat broker rm st0 bs) b := by
    rw [runFrom_append]
    rfl
  refine ⟨?_, ?_, ?_⟩
  · rw [h, step_fills]
  · rw [h, step_pending]
  · rw [h, step_fills]
    simp

/-- Claim C1: one-bar execution lag.  After processing bar T (index i),
the pending queue holds exactly the signal that survived risk filtering
on bar T; processing bar T+1 appends to the fill list exactly the
executions of those pending signals; every such fill is dated at bar
T+1; and under strictly increasing bar dates no such fill carries the
date of bar T, the bar on which its signal was generated. -/
theorem engine_one_bar_lag (strat : Strategy) (broker : Broker) (rm : Option RiskManager)
    (st0 : EngineState) (bars : List Bar) (i : ℕ) (hi : i + 1 < bars.length) :
    (Engine.runFrom strat broker rm st0 (bars.take (i+1))).pending =
      (Engine.emit strat rm
        (Engine.executePending broker (Engine.runFrom strat broker rm st0 (bars.take i))
          (bars.get ⟨i, Nat.lt_of_succ_lt hi⟩)).riskState
        (Engine.executePending broker (Engine.runFrom strat broker rm st0 (bars.take i))
          (bars.get ⟨i, Nat.lt_of_succ_lt hi⟩)).portfolio.cash
        ((Engine.runFrom strat broker rm st0 (bars.take i)).history ++
          [bars.get ⟨i, Nat.lt_of_succ_lt hi⟩])
        (bars.get ⟨i, Nat.lt_of_succ_lt hi⟩)).2.toList ∧
    (Engine.runFrom strat broker rm st0 (bars.take (i+2))).portfolio.fills =
      (Engine.runFrom strat broker rm st0 (bars.take (i+1))).portfolio.fills ++
        (Engine.runFrom strat broker rm st0 (bars.take (i+1))).pending.map
          (execFill broker (bars.get ⟨i+1, hi⟩)) ∧
    (∀ f ∈ (Engine.runFrom strat broker rm st0 (bars.take (i+1))).pending.map
        (execFill broker (bars.get ⟨i+1, hi⟩)),
       f.date = (bars.get ⟨i+1, hi⟩).date) ∧
    (List.Chain' (fun a b => a.date < b.date) bars →
      ∀ f ∈ (Engine.runFrom strat broker rm st0 (bars.take (i+1))).pending.map
          (execFill broker (bars.get ⟨i+1, hi⟩)),
        f.date ≠ (bars.get ⟨i, Nat.lt_of_succ_lt hi⟩).date) := by
  have hT : i < bars.length := Nat.lt_of_succ_lt hi
  refine ⟨?_, ?_, ?_, ?_⟩
  · rw [runFrom_take_succ strat broker rm st0 bars i hT, step_pending]
  · rw [show i + 2 = (i+1) + 1 from rfl,
        runFrom_take_succ strat broker rm st0 bars (i+1) hi, step_fills]
  · intro f hf
    rw [List.mem_map] at hf
    obtain ⟨s, hs, rfl⟩ := hf
    rfl
  · intro hchain f hf
    rw [List.mem_map] at hf
    obtain ⟨s, hs, rfl⟩ := hf
    have hlt : (bars.get ⟨i, hT⟩).date < (bars.get ⟨i+1, hi⟩).date := by
      exact List.chain'_iff_get.mp hchain i (by omega)
    exact ne_of_gt hlt

/-- Witness for C1: a two-bar run in which the strategy buys on the first
bar; the fill materialises on the second bar. -/
theorem engine_one_bar_lag_witness :
    (Engine.runFrom stratW1 brokerC5 none (Engine.init 1000) [bw0]).pending =
      (Engine.emit stratW1 none
        (Engine.executePending brokerC5
          (Engine.runFrom stratW1 brokerC5 none (Engine.init 1000) []) bw0).riskState
        (Engine.executePending brokerC5
          (Engine.runFrom stratW1 brokerC5 none (Engine.init 1000) []) bw0).portfolio.cash
        ((Engine.runFrom stratW1 brokerC5 none (Engine.init 1000) []).history ++ [bw0])
        bw0).2.toList ∧
    (Engine.runFrom stratW1 brokerC5 none (Engine.init 1000) [bw0, bw1]).portfolio.fills =
      (Engine.runFrom stratW1 brokerC5 none (Engine.init 1000) [bw0]).portfolio.fills ++
        (Engine.runFrom stratW1 brokerC5 none (Engine.init 1000) [bw0]).pending.map
          (execFill brokerC5 bw1) ∧
    (∀ f ∈ (Engine.runFrom stratW1 brokerC5 none (Engine.init 1000) [bw0]).pending.map
        (execFill brokerC5 bw1), f.date = bw1.date) ∧
    (List.Chain' (fun a b => a.date < b.date) [bw0, bw1] →
      ∀ f ∈ (Engine.runFrom stratW1 brokerC5 none (Engine.init 1000) [bw0]).pending.map
          (execFill brokerC5 bw1), f.date ≠ bw0.date) :=
  engine_one_bar_lag stratW1 brokerC5 none (Engine.init 1000) [bw0, bw1] 0 (by norm_num)

end Backtester
